import Mathlib

/-!
Shallow embedding of the repository file translated_fields/fields.py.

Modelling conventions:
* Python `Optional[str]` values (the active language from get_language, an
  explicit language_code argument) become `Option String`; Django's
  get_language result is threaded through as an explicit `active` parameter.
* A model instance is a total map `String → String` from attribute names to
  stored values; `setattr` is pointwise functional update.
* Character handling is ASCII, matching the regex class [a-z0-9_] used by
  to_attribute and the ASCII ranges relevant to str.lower / str.upper here.
* The context variable for show_language_code is an `Option Bool` state
  (none = unset); `ContextVar.set` returns a token recording the prior
  value and `reset` restores exactly that recorded value.  A wrapped body
  either finishes normally or raises, modelled by `PyOutcome`.
-/

/-- Characters accepted by the regex character class [a-z0-9_] that
to_attribute keeps (codepoints 97..122, 48..57 and 95). -/
def isAttrChar (c : Char) : Bool :=
  (97 ≤ c.toNat && c.toNat ≤ 122) || (48 ≤ c.toNat && c.toNat ≤ 57) || (c.toNat == 95)

/-- ASCII lower-casing of one character, modelling str.lower(). -/
def lowerChar (c : Char) : Char :=
  if 65 ≤ c.toNat ∧ c.toNat ≤ 90 then Char.ofNat (c.toNat + 32) else c

/-- ASCII upper-casing of one character, modelling str.upper() on one char. -/
def upperChar (c : Char) : Char :=
  if 97 ≤ c.toNat ∧ c.toNat ≤ 122 then Char.ofNat (c.toNat - 32) else c

/-- str.lower() over a whole string. -/
def pyLower (s : String) : String := String.mk (s.data.map lowerChar)

/-- One pass of re.sub applied to a character list: the Bool flag records
whether the previous character was part of a run of rejected characters
whose single replacement underscore has already been emitted. -/
def reSubAux : Bool → List Char → List Char
  | _, [] => []
  | prevBad, c :: cs =>
    if isAttrChar c then c :: reSubAux false cs
    else if prevBad then reSubAux true cs
    else '_' :: reSubAux true cs

/-- Python re.sub applied to a string: every maximal run of characters
outside [a-z0-9_] is replaced by a single underscore. -/
def reSubAttr (s : String) : String := String.mk (reSubAux false s.data)

/-- Python str(x) for x an Optional[str]: None prints as the text None. -/
def pyStr : Option String → String
  | none => "None"
  | some s => s

/-- Python truthiness-based `a or b` on optional strings: both None and the
empty string are falsy, so they select the right operand. -/
def pyOrOpt : Option String → Option String → Option String
  | none, b => b
  | some s, b => if s = "" then b else some s

/-- to_attribute(name, language_code=None) from fields.py:
language = language_code or get_language(), then the formatted string
name_language is lower-cased and mangled by the regex substitution.
`active` is the value get_language() would return. -/
def to_attribute (name : String) (language_code : Option String) (active : Option String) : String :=
  reSubAttr (pyLower (name ++ "_" ++ pyStr (pyOrOpt language_code active)))

/-- django.utils.text.capfirst: empty stays empty, otherwise the first
character is upper-cased and the rest kept. -/
def capfirst (s : String) : String :=
  match s.data with
  | [] => ""
  | c :: cs => String.mk (upperChar c :: cs)

/-- The verbose name carried by a generated field: either a plain string
(a per-language override supplied through `specific`) or the lazy closure
built by the helper that appends the language code while the
display toggle is set. -/
inductive VerboseName where
  | plain (s : String)
  | lazyLang (base : String) (language_code : String)
deriving DecidableEq

/-- Forcing a verbose name under a given toggle state; the lazyLang case is
the closure body of the maybe-language-code verbose name helper:
if the context variable reads true (default False) the result is
capfirst(base) followed by the bracketed language code, else the base. -/
def evalVerbose : VerboseName → Option Bool → String
  | VerboseName.plain s, _ => s
  | VerboseName.lazyLang base lc, toggle =>
    if toggle.getD false then capfirst base ++ " [" ++ lc ++ "]" else base

/-- The state a TranslatedField records at construction: the configured
language list, the global creation counter value it reserved, the
verbose_name keyword popped from the wrapped field's deconstruction (none
when the wrapped field had no explicit verbose_name) and the per-language
`specific` overrides (modelled for the verbose_name keyword, the only
constructor keyword the claims inspect). -/
structure TranslatedField where
  languages : List String
  creation_counter : Nat
  verbose_name_kw : Option String
  specific : String → Option String

/-- One concrete storage field produced by contribute_to_class: its mangled
attribute name, the language tag set on it, the creation counter assigned
within the reserved block, and its verbose name. -/
structure GeneratedField where
  attr : String
  language_code : String
  creation_counter : Nat
  verbose : VerboseName
deriving DecidableEq

/-- TranslatedField.__init__: record the languages and the current global
Field.creation_counter, then advance the global counter by the number of
languages.  Returns the constructed state and the new global counter. -/
def TranslatedField_init (verbose_name_kw : Option String) (specific : String → Option String)
    (languages : List String) (globalCounter : Nat) : TranslatedField × Nat :=
  (TranslatedField.mk languages globalCounter verbose_name_kw specific,
   globalCounter + languages.length)

/-- The loop body of contribute_to_class: for each language (with its
enumeration index) build one field whose attribute name is
to_attribute(name, language_code), whose creation counter is the reserved
base plus the index, and whose verbose name is the specific override when
present, else the lazy language-code label over the base verbose name. -/
def contributeFields (name : String) (active : Option String) (specific : String → Option String)
    (verbose : String) (base : Nat) : Nat → List String → List GeneratedField
  | _, [] => []
  | index, lc :: rest =>
    GeneratedField.mk (to_attribute name (some lc) active) lc (base + index)
      (match specific lc with
        | some v => VerboseName.plain v
        | none => VerboseName.lazyLang verbose lc)
      :: contributeFields name active specific verbose base (index + 1) rest

/-- TranslatedField.contribute_to_class restricted to the field-generation
loop: the base verbose name is the popped verbose_name keyword, defaulting
to the logical attribute name. `active` is the active language at
class-definition time. -/
def contribute_to_class (tf : TranslatedField) (name : String) (active : Option String) :
    List GeneratedField :=
  contributeFields name active tf.specific (Option.getD tf.verbose_name_kw name)
    tf.creation_counter 0 tf.languages

/-- The expression get_language() or field.languages[0] of the default
getter: a truthy active language short-circuits, otherwise the head of the
language list is taken (none models the IndexError on an empty list). -/
def pyOrLang (active : Option String) (langs : List String) : Option String :=
  match active with
  | some l => if l = "" then langs.head? else some l
  | none => langs.head?

/-- translated_attrgetter(name, field) applied to an instance: read the
attribute named to_attribute(name, get_language() or field.languages[0]). -/
def translated_attrgetter (name : String) (field : TranslatedField) (active : Option String)
    (obj : String → String) : Option String :=
  Option.map (fun l => obj (to_attribute name (some l) active)) (pyOrLang active field.languages)

/-- Python setattr on an instance modelled as a map of attributes. -/
def pySetattr (obj : String → String) (attr value : String) : String → String :=
  fun a => if a = attr then value else obj a

/-- translated_attrsetter(name, field) applied to an instance and a value:
write the attribute named to_attribute(name), i.e. with no explicit
language code, so the active language (or its None fallback text) decides
the target attribute.  The field argument is unused, as in the source. -/
def translated_attrsetter (name : String) (field : TranslatedField) (active : Option String)
    (obj : String → String) (value : String) : String → String :=
  pySetattr obj (to_attribute name none active) value

/-- The keyword-filtering helper around custom getter/setter factories:
given the factory's declared parameter names, the positional arguments and
the supplied keyword arguments, it reports whether a deprecation warning
fires (some supplied keyword is not a declared parameter) and calls the
factory with exactly the keywords whose names are declared. -/
def _optional_keywords {α β γ : Type} (params : List String) (fn : γ → List (String × α) → β)
    (args : γ) (kwargs : List (String × α)) : Bool × β :=
  (kwargs.any (fun kv => !(params.contains kv.1)),
   fn args (kwargs.filter (fun kv => params.contains kv.1)))

/-- Outcome of running a wrapped Python block: normal return or a raised
exception propagating out. -/
inductive PyOutcome (α : Type) where
  | ok (a : α)
  | raised

/-- ContextVar.set: returns the token (the prior value) and the new state. -/
def ctx_set (state : Option Bool) (shw : Bool) : Option Bool × Option Bool :=
  (state, some shw)

/-- ContextVar.reset(token): restores the value recorded in the token. -/
def ctx_reset (token : Option Bool) : Option Bool := token

/-- The show_language_code context manager: set the variable and keep the
token, run the body, and reset the variable only when the body returns
normally; a raised exception propagates past the reset line, leaving the
variable as the body left it. -/
def show_language_code {α : Type} (shw : Bool)
    (body : Option Bool → PyOutcome α × Option Bool)
    (state : Option Bool) : PyOutcome α × Option Bool :=
  match ctx_set state shw with
  | (token, s1) =>
    match body s1 with
    | (PyOutcome.ok a, _) => (PyOutcome.ok a, ctx_reset token)
    | (PyOutcome.raised, s2) => (PyOutcome.raised, s2)

/-! Helper lemmas about strings and the character-level functions. -/

theorem string_data_append (a b : String) : (a ++ b).data = a.data ++ b.data := by
  cases a
  cases b
  rfl

theorem string_eq_of_data {a b : String} (h : a.data = b.data) : a = b := by
  cases a
  cases b
  exact congrArg String.mk h

theorem string_append_left_cancel (p s t : String) (h : p ++ s = p ++ t) : s = t := by
  apply string_eq_of_data
  have h2 := congrArg String.data h
  rw [string_data_append, string_data_append] at h2
  exact List.append_cancel_left h2

theorem pyLower_data (s : String) : (pyLower s).data = s.data.map lowerChar := rfl

theorem reSubAttr_data (s : String) : (reSubAttr s).data = reSubAux false s.data := rfl

theorem lowerChar_attr {c : Char} (h : isAttrChar c = true) : lowerChar c = c := by
  simp only [isAttrChar, Bool.or_eq_true, Bool.and_eq_true, decide_eq_true_eq, beq_iff_eq] at h
  unfold lowerChar
  rw [if_neg (by omega)]

theorem map_lowerChar_clean (cs : List Char) (h : cs.all isAttrChar = true) :
    cs.map lowerChar = cs := by
  induction cs with
  | nil => rfl
  | cons c cs ih =>
    rw [List.all_cons, Bool.and_eq_true] at h
    simp only [List.map_cons, lowerChar_attr h.1, ih h.2]

theorem reSubAux_clean (cs : List Char) : ∀ b : Bool, cs.all isAttrChar = true →
    reSubAux b cs = cs := by
  induction cs with
  | nil => intro b _; rfl
  | cons c cs ih =>
    intro b h
    rw [List.all_cons, Bool.and_eq_true] at h
    simp only [reSubAux, if_pos h.1, ih false h.2]

theorem reSubAux_all (cs : List Char) : ∀ b : Bool, (reSubAux b cs).all isAttrChar = true := by
  induction cs with
  | nil => intro b; rfl
  | cons c cs ih =>
    intro b
    simp only [reSubAux]
    by_cases hc : isAttrChar c = true
    · rw [if_pos hc, List.all_cons, Bool.and_eq_true]
      exact ⟨hc, ih false⟩
    · rw [if_neg hc]
      cases b with
      | true => rw [if_pos rfl]; exact ih true
      | false =>
        rw [if_neg (by simp)]
        rw [List.all_cons, Bool.and_eq_true]
        exact ⟨by decide, ih true⟩

theorem reSubAux_append_attr (xs : List Char) : ∀ (b : Bool) (c : Char) (ys : List Char),
    isAttrChar c = true →
    reSubAux b (xs ++ c :: ys) = reSubAux b xs ++ c :: reSubAux false ys := by
  induction xs with
  | nil =>
    intro b c ys hc
    simp only [List.nil_append, reSubAux, if_pos hc]
  | cons x xs ih =>
    intro b c ys hc
    simp only [List.cons_append, reSubAux, List.append_eq]
    by_cases hx : isAttrChar x = true
    · rw [if_pos hx, if_pos hx, ih false c ys hc, List.cons_append]
    · rw [if_neg hx, if_neg hx]
      cases b with
      | true =>
        rw [if_pos rfl, if_pos rfl, ih true c ys hc]
      | false =>
        rw [if_neg (by simp), if_neg (by simp), ih true c ys hc, List.cons_append]

theorem reSub_lower_append (name t : String)
    (h : ((pyLower t).data.all isAttrChar) = true) :
    reSubAttr (pyLower (name ++ "_" ++ t)) = reSubAttr (pyLower name) ++ "_" ++ pyLower t := by
  apply string_eq_of_data
  have hL : (reSubAttr (pyLower (name ++ "_" ++ t))).data
      = reSubAux false (name.data.map lowerChar ++ '_' :: t.data.map lowerChar) := by
    rw [reSubAttr_data, pyLower_data, string_data_append, string_data_append,
      List.map_append, List.map_append, List.append_assoc]
    rfl
  have hR : (reSubAttr (pyLower name) ++ "_" ++ pyLower t).data
      = reSubAux false (name.data.map lowerChar) ++ '_' :: t.data.map lowerChar := by
    rw [string_data_append, string_data_append, reSubAttr_data, pyLower_data, pyLower_data,
      List.append_assoc]
    rfl
  rw [hL, hR,
    reSubAux_append_attr (name.data.map lowerChar) false '_' (t.data.map lowerChar) (by decide),
    reSubAux_clean (t.data.map lowerChar) false (by rw [pyLower_data] at h; exact h)]

theorem to_attribute_some_eq (name l : String) (active : Option String) (h : l ≠ "") :
    to_attribute name (some l) active = reSubAttr (pyLower (name ++ "_" ++ l)) := by
  simp only [to_attribute, pyOrOpt]
  rw [if_neg h]
  rfl

theorem to_attribute_active_irrel (name l : String) (a a' : Option String) (h : l ≠ "") :
    to_attribute name (some l) a = to_attribute name (some l) a' := by
  rw [to_attribute_some_eq name l a h, to_attribute_some_eq name l a' h]

theorem to_attribute_clean (name l : String) (active : Option String)
    (h1 : l ≠ "") (h2 : l.data.all isAttrChar = true) :
    to_attribute name (some l) active = reSubAttr (pyLower name) ++ "_" ++ l := by
  have hml : pyLower l = l := string_eq_of_data (by rw [pyLower_data]; exact map_lowerChar_clean l.data h2)
  rw [to_attribute_some_eq name l active h1,
    reSub_lower_append name l (by rw [hml]; exact h2), hml]

theorem to_attribute_none_none (name : String) :
    to_attribute name none none = reSubAttr (pyLower name) ++ "_" ++ "none" := by
  show reSubAttr (pyLower (name ++ "_" ++ "None")) = _
  rw [reSub_lower_append name "None" (by decide)]
  have hn : pyLower "None" = "none" := by decide
  rw [hn]

/-! Claim theorems. -/

/-- C1 counterexample: with prior toggle value unset and the wrapped
operation raising, exiting the show_language_code scope leaves the toggle
at the value set on entry (some true), which differs from the prior value
(none), so the claimed restoration on exceptional exit fails. -/
theorem show_language_code_not_restored_on_raise :
    (show_language_code true (fun s => ((PyOutcome.raised : PyOutcome Nat), s)) none).2 = some true
    ∧ some true ≠ (none : Option Bool) := by
  exact ⟨rfl, by decide⟩

/-- C1 (amended): entering the show_language_code scope sets the toggle to
the given boolean; when the wrapped operation returns normally the toggle
is restored to its prior value, but when it raises, the exception
propagates and the toggle is left as the wrapped operation left it
(in particular not restored to the prior value). -/
theorem show_language_code_scope {α : Type} (prior : Option Bool) (shw : Bool)
    (body : Option Bool → PyOutcome α × Option Bool) :
    (∀ a s2, body (some shw) = (PyOutcome.ok a, s2) →
        show_language_code shw body prior = (PyOutcome.ok a, prior))
    ∧ (∀ s2, body (some shw) = (PyOutcome.raised, s2) →
        show_language_code shw body prior = (PyOutcome.raised, s2)) := by
  constructor
  · intro a s2 h
    simp [show_language_code, ctx_set, ctx_reset, h]
  · intro s2 h
    simp [show_language_code, ctx_set, ctx_reset, h]

/-- C1 witness: concrete normal-exit run restoring the prior value. -/
theorem show_language_code_scope_w :
    show_language_code true (fun s => ((PyOutcome.ok 7 : PyOutcome Nat), s)) (some false)
      = (PyOutcome.ok 7, some false) :=
  (show_language_code_scope (some false) true
    (fun s => ((PyOutcome.ok 7 : PyOutcome Nat), s))).1 7 (some true) rfl

/-- C5: for a non-empty explicit language code, to_attribute is the
lower-cased formatted name_language string with every maximal run of
characters outside the class [a-z0-9_] collapsed to a single underscore
(that is exactly reSubAttr after pyLower); the result consists only of
characters of that class; and the result does not depend on the active
language, so it is deterministic in its two explicit inputs. -/
theorem to_attribute_spec (name l : String) (active active' : Option String) (h : l ≠ "") :
    to_attribute name (some l) active = reSubAttr (pyLower (name ++ "_" ++ l))
    ∧ ((to_attribute name (some l) active).data.all isAttrChar) = true
    ∧ to_attribute name (some l) active = to_attribute name (some l) active' := by
  refine ⟨to_attribute_some_eq name l active h, ?_, to_attribute_active_irrel name l active active' h⟩
  rw [to_attribute_some_eq name l active h, reSubAttr_data]
  exact reSubAux_all _ false

/-- C5 witness at a name containing upper-case letters, a space and a
punctuation character. -/
theorem to_attribute_spec_w :
    to_attribute "Title 9!" (some "en") none = reSubAttr (pyLower ("Title 9!" ++ "_" ++ "en"))
    ∧ ((to_attribute "Title 9!" (some "en") none).data.all isAttrChar) = true
    ∧ to_attribute "Title 9!" (some "en") none = to_attribute "Title 9!" (some "en") (some "de") :=
  to_attribute_spec "Title 9!" "en" none (some "de") (by decide)

/-- C8: the keyword-filtering helper warns exactly when some supplied
keyword is not among the factory's declared parameter names, and it calls
the factory on precisely the supplied keywords whose names are declared
(the rest are dropped, and the call always happens, so unsupported
keywords never cause a hard failure). -/
theorem optional_keywords_filter {α β γ : Type} (params : List String)
    (fn : γ → List (String × α) → β) (args : γ) (kwargs : List (String × α)) :
    ((_optional_keywords params fn args kwargs).1 = true ↔ ∃ kv ∈ kwargs, ¬ kv.1 ∈ params)
    ∧ ∃ passed, (_optional_keywords params fn args kwargs).2 = fn args passed
        ∧ ∀ kv, kv ∈ passed ↔ (kv ∈ kwargs ∧ kv.1 ∈ params) := by
  constructor
  · simp [_optional_keywords, List.any_eq_true]
  · refine ⟨kwargs.filter (fun kv => params.contains kv.1), rfl, ?_⟩
    intro kv
    simp [List.mem_filter]

/-- C8 witness: a supplied keyword outside the declared parameters makes
the warning fire. -/
theorem optional_keywords_filter_w :
    (_optional_keywords ["name", "field"] (fun (_ : Unit) kws => kws) ()
      [("field", (0 : Nat)), ("extra", 1)]).1 = true := by
  have h := optional_keywords_filter ["name", "field"] (fun (_ : Unit) kws => kws) ()
    [("field", (0 : Nat)), ("extra", 1)]
  exact h.1.mpr ⟨("extra", 1), by decide, by decide⟩

/-- C10: passing the empty string as explicit language code behaves exactly
as passing no language code: the empty string is falsy for the Python `or`
in to_attribute, so the active language is substituted instead. -/
theorem to_attribute_empty_code (name : String) (active : Option String) :
    to_attribute name (some "") active = to_attribute name none active := by
  simp [to_attribute, pyOrOpt]

/-- C2: with no active language set, the default getter reads the storage
attribute of the first generated field, i.e. the one of the first
configured language (hL fixes a non-empty language list, h0 rules out the
degenerate empty-string language code, which Python treats as falsy). -/
theorem getter_falls_back_first_language (name : String) (field : TranslatedField)
    (obj : String → String) (l₀ : String) (rest : List String) (aDef : Option String)
    (hL : field.languages = l₀ :: rest) (h0 : l₀ ≠ "") :
    ∃ g gs, contribute_to_class field name aDef = g :: gs
      ∧ translated_attrgetter name field none obj = some (obj g.attr) := by
  refine ⟨GeneratedField.mk (to_attribute name (some l₀) aDef) l₀ field.creation_counter
    (match field.specific l₀ with
      | some v => VerboseName.plain v
      | none => VerboseName.lazyLang (Option.getD field.verbose_name_kw name) l₀),
    contributeFields name aDef field.specific (Option.getD field.verbose_name_kw name)
      field.creation_counter 1 rest, ?_, ?_⟩
  · unfold contribute_to_class
    rw [hL]
    rfl
  · unfold translated_attrgetter pyOrLang
    rw [hL]
    simp only [List.head?, Option.map]
    rw [to_attribute_active_irrel name l₀ none aDef h0]

/-- C2 witness. -/
theorem getter_falls_back_first_language_w :
    ∃ g gs, contribute_to_class (TranslatedField.mk ["en"] 0 none (fun _ => none)) "title" none
        = g :: gs
      ∧ translated_attrgetter "title" (TranslatedField.mk ["en"] 0 none (fun _ => none)) none
          (fun _ => "v") = some ((fun _ => "v") g.attr) :=
  getter_falls_back_first_language "title" (TranslatedField.mk ["en"] 0 none (fun _ => none))
    (fun _ => "v") "en" [] none rfl (by decide)

/-- C3: for a field configured with languages en and de, writing through
the default setter while the active language is de stores the value under
the de storage attribute, leaves the en storage attribute unchanged, and
leaves every attribute other than the de one unchanged. -/
theorem setter_active_de_frame (field : TranslatedField) (name : String) (obj : String → String)
    (value : String) (aDef : Option String) (hL : field.languages = ["en", "de"]) :
    translated_attrsetter name field (some "de") obj value (to_attribute name (some "de") aDef)
        = value
    ∧ translated_attrsetter name field (some "de") obj value (to_attribute name (some "en") aDef)
        = obj (to_attribute name (some "en") aDef)
    ∧ ∀ b, b ≠ to_attribute name (some "de") aDef →
        translated_attrsetter name field (some "de") obj value b = obj b := by
  have hkey : to_attribute name none (some "de") = to_attribute name (some "de") aDef := by
    rw [to_attribute_some_eq name "de" aDef (by decide)]
    rfl
  have hne : to_attribute name (some "en") aDef ≠ to_attribute name (some "de") aDef := by
    rw [to_attribute_clean name "en" aDef (by decide) (by decide),
      to_attribute_clean name "de" aDef (by decide) (by decide)]
    intro hcontra
    exact absurd (string_append_left_cancel (reSubAttr (pyLower name) ++ "_") "en" "de" hcontra)
      (by decide)
  refine ⟨?_, ?_, ?_⟩
  · simp only [translated_attrsetter, pySetattr]
    rw [hkey, if_pos rfl]
  · simp only [translated_attrsetter, pySetattr]
    rw [hkey, if_neg hne]
  · intro b hb
    simp only [translated_attrsetter, pySetattr]
    rw [hkey, if_neg hb]

/-- C3 witness: an unrelated attribute keeps its old value. -/
theorem setter_active_de_frame_w :
    translated_attrsetter "title" (TranslatedField.mk ["en", "de"] 0 none (fun _ => none))
      (some "de") (fun _ => "x") "y" "other" = "x" := by
  have h := setter_active_de_frame (TranslatedField.mk ["en", "de"] 0 none (fun _ => none))
    "title" (fun _ => "x") "y" none rfl
  exact h.2.2 "other" (by decide)

/-- C9: writing through the default setter with no active language stores
the value under the attribute formed from the mangled base name followed
by the underscore-separated suffix none (the lower-cased text of Python's
None), not under the first configured language's storage attribute, which
stays unchanged whenever that language code is a clean non-empty code
other than the literal none. -/
theorem setter_no_active_language (field : TranslatedField) (name : String)
    (obj : String → String) (value : String) (l₀ : String) (rest : List String)
    (aDef : Option String) (hL : field.languages = l₀ :: rest)
    (h1 : l₀ ≠ "") (h2 : l₀.data.all isAttrChar = true) (h3 : l₀ ≠ "none") :
    translated_attrsetter name field none obj value
        = pySetattr obj (reSubAttr (pyLower name) ++ "_" ++ "none") value
    ∧ translated_attrsetter name field none obj value (to_attribute name (some l₀) aDef)
        = obj (to_attribute name (some l₀) aDef) := by
  have hkey : to_attribute name none none = reSubAttr (pyLower name) ++ "_" ++ "none" :=
    to_attribute_none_none name
  constructor
  · simp only [translated_attrsetter]
    rw [hkey]
  · simp only [translated_attrsetter, pySetattr]
    rw [hkey, to_attribute_clean name l₀ aDef h1 h2]
    rw [if_neg (fun hcontra =>
      h3 (string_append_left_cancel (reSubAttr (pyLower name) ++ "_") l₀ "none" hcontra))]

/-- C9 witness: the first configured language's storage attribute is left
unchanged by a write with no active language. -/
theorem setter_no_active_language_w :
    translated_attrsetter "title" (TranslatedField.mk ["en"] 0 none (fun _ => none)) none
      (fun _ => "x") "y" (to_attribute "title" (some "en") none) = "x" := by
  have h := setter_no_active_language (TranslatedField.mk ["en"] 0 none (fun _ => none))
    "title" (fun _ => "x") "y" "en" [] none rfl (by decide) (by decide) (by decide)
  exact h.2

/-! Helpers about the field-generation loop. -/

theorem contributeFields_length (langs : List String) : ∀ (name : String)
    (active : Option String) (specific : String → Option String) (verbose : String)
    (base idx : Nat),
    (contributeFields name active specific verbose base idx langs).length = langs.length := by
  induction langs with
  | nil => intro _ _ _ _ _ _; rfl
  | cons lc rest ih =>
    intro name active specific verbose base idx
    simp only [contributeFields, List.length_cons, ih name active specific verbose base (idx + 1)]

theorem contributeFields_counter (langs : List String) : ∀ (name : String)
    (active : Option String) (specific : String → Option String) (verbose : String)
    (base idx i : Nat), i < langs.length →
    ((contributeFields name active specific verbose base idx langs)[i]?).map
      GeneratedField.creation_counter = some (base + idx + i) := by
  induction langs with
  | nil => intro _ _ _ _ _ _ i hi; exact absurd hi (by simp)
  | cons lc rest ih =>
    intro name active specific verbose base idx i hi
    cases i with
    | zero => simp [contributeFields]
    | succ i =>
      have hi' : i < rest.length := by simpa using hi
      have h := ih name active specific verbose base (idx + 1) i hi'
      have harith : base + (idx + 1) + i = base + idx + (i + 1) := by omega
      rw [harith] at h
      simp only [contributeFields, List.getElem?_cons_succ]
      exact h

theorem contributeFields_map_attr (langs : List String) : ∀ (name : String)
    (active : Option String) (specific : String → Option String) (verbose : String)
    (base idx : Nat),
    (contributeFields name active specific verbose base idx langs).map GeneratedField.attr
      = langs.map (fun l => to_attribute name (some l) active) := by
  induction langs with
  | nil => intro _ _ _ _ _ _; rfl
  | cons lc rest ih =>
    intro name active specific verbose base idx
    simp only [contributeFields, List.map_cons, ih name active specific verbose base (idx + 1)]

theorem contributeFields_mem_verbose (langs : List String) : ∀ (name : String)
    (active : Option String) (specific : String → Option String) (verbose : String)
    (base idx : Nat) (g : GeneratedField),
    g ∈ contributeFields name active specific verbose base idx langs →
    specific g.language_code = none →
    g.verbose = VerboseName.lazyLang verbose g.language_code := by
  induction langs with
  | nil => intro _ _ _ _ _ _ g hg _; simp [contributeFields] at hg
  | cons lc rest ih =>
    intro name active specific verbose base idx g hg hs
    simp only [contributeFields, List.mem_cons] at hg
    rcases hg with hg | hg
    · subst hg
      simp only at hs ⊢
      rw [hs]
    · exact ih name active specific verbose base (idx + 1) g hg hs

/-- C4: constructing a TranslatedField advances the global creation counter
by exactly the number of configured languages, class attachment generates
exactly one storage field per language, and the i-th generated field
carries the counter value reserved-start + i, so counters are distinct and
in declaration order. -/
theorem translated_field_counter_block (verbose_kw : Option String)
    (specific : String → Option String) (languages : List String) (counter : Nat)
    (name : String) (active : Option String) :
    (TranslatedField_init verbose_kw specific languages counter).2 = counter + languages.length
    ∧ (contribute_to_class (TranslatedField_init verbose_kw specific languages counter).1
        name active).length = languages.length
    ∧ ∀ i, i < languages.length →
        ((contribute_to_class (TranslatedField_init verbose_kw specific languages counter).1
          name active)[i]?).map GeneratedField.creation_counter = some (counter + i) := by
  refine ⟨rfl, contributeFields_length languages name active specific
    (Option.getD verbose_kw name) counter 0, ?_⟩
  intro i hi
  exact contributeFields_counter languages name active specific
    (Option.getD verbose_kw name) counter 0 i hi

/-- C4 witness: two languages starting from counter 5 reserve 5 and 6 and
advance the global counter to 7. -/
theorem translated_field_counter_block_w :
    (TranslatedField_init none (fun _ => none) ["en", "de"] 5).2 = 5 + 2
    ∧ ((contribute_to_class (TranslatedField_init none (fun _ => none) ["en", "de"] 5).1
        "title" none)[1]?).map GeneratedField.creation_counter = some (5 + 1) := by
  have h := translated_field_counter_block none (fun _ => none) ["en", "de"] 5 "title" none
  exact ⟨h.1, h.2.2 1 (by decide)⟩

/-- C6 counterexample: the two configured language codes en.us and en_us
are distinct, yet both mangle to the storage attribute title_en_us, so the
generated storage attribute names on the class are not pairwise distinct. -/
theorem storage_attr_clash :
    (["en.us", "en_us"] : List String).Nodup
    ∧ ((contribute_to_class (TranslatedField.mk ["en.us", "en_us"] 0 none (fun _ => none))
        "title" none).map GeneratedField.attr) = ["title_en_us", "title_en_us"]
    ∧ ¬ ((contribute_to_class (TranslatedField.mk ["en.us", "en_us"] 0 none (fun _ => none))
        "title" none).map GeneratedField.attr).Nodup := by
  refine ⟨by decide, by decide, by decide⟩

/-- C6 (amended): the generated storage attribute names are pairwise
distinct provided the configured language codes are pairwise distinct,
non-empty and consist only of characters in [a-z0-9_] (so that the name
mangling cannot identify two different codes). -/
theorem storage_attr_nodup (tf : TranslatedField) (name : String) (active : Option String)
    (hd : tf.languages.Nodup)
    (hc : ∀ l ∈ tf.languages, l ≠ "" ∧ l.data.all isAttrChar = true) :
    ((contribute_to_class tf name active).map GeneratedField.attr).Nodup := by
  unfold contribute_to_class
  rw [contributeFields_map_attr tf.languages name active tf.specific
    (Option.getD tf.verbose_name_kw name) tf.creation_counter 0]
  refine List.Nodup.map_on ?_ hd
  intro x hx y hy hxy
  obtain ⟨hx1, hx2⟩ := hc x hx
  obtain ⟨hy1, hy2⟩ := hc y hy
  rw [to_attribute_clean name x active hx1 hx2, to_attribute_clean name y active hy1 hy2] at hxy
  exact string_append_left_cancel (reSubAttr (pyLower name) ++ "_") x y hxy

/-- C6 witness: for distinct clean language codes the generated names are
pairwise distinct. -/
theorem storage_attr_nodup_w :
    ((contribute_to_class (TranslatedField.mk ["en", "de"] 0 none (fun _ => none)) "title"
      none).map GeneratedField.attr).Nodup :=
  storage_attr_nodup (TranslatedField.mk ["en", "de"] 0 none (fun _ => none)) "title" none
    (by decide) (by decide)

/-- C7 counterexample: for base label title and language en, evaluating the
generated label with the toggle active yields Title with a bracketed
language code, whose first character is capitalized by capfirst, so the
result is not the base label with the bracketed code appended (neither
with nor without a separating space). -/
theorem verbose_label_capfirst_cex :
    ((contribute_to_class (TranslatedField.mk ["en"] 0 none (fun _ => none)) "title" none).map
        (fun g => evalVerbose g.verbose (some true))) = ["Title [en]"]
    ∧ ("Title [en]" : String) ≠ "title [en]"
    ∧ ("Title [en]" : String) ≠ "title[en]" := by
  refine ⟨by decide, by decide, by decide⟩

/-- C7 (amended): for a generated field whose verbose label was not
overridden through the per-language specific mapping, evaluating the label
with the display toggle active yields capfirst of the base label followed
by a space and the bracketed language code, and evaluating it with the
toggle inactive or in its default unset state yields the base label
unchanged. -/
theorem verbose_label_toggle (tf : TranslatedField) (name : String) (active : Option String)
    (g : GeneratedField) (hg : g ∈ contribute_to_class tf name active)
    (hn : tf.specific g.language_code = none) :
    evalVerbose g.verbose (some true)
        = capfirst (Option.getD tf.verbose_name_kw name) ++ " [" ++ g.language_code ++ "]"
    ∧ evalVerbose g.verbose none = Option.getD tf.verbose_name_kw name
    ∧ evalVerbose g.verbose (some false) = Option.getD tf.verbose_name_kw name := by
  have hv := contributeFields_mem_verbose tf.languages name active tf.specific
    (Option.getD tf.verbose_name_kw name) tf.creation_counter 0 g hg hn
  rw [hv]
  exact ⟨rfl, rfl, rfl⟩

/-- C7 witness: an unset toggle leaves the base label unchanged. -/
theorem verbose_label_toggle_w :
    evalVerbose (VerboseName.lazyLang "title" "en") none = "title" := by
  have h := verbose_label_toggle (TranslatedField.mk ["en"] 0 none (fun _ => none)) "title" none
    (GeneratedField.mk "title_en" "en" 0 (VerboseName.lazyLang "title" "en")) (by decide) rfl
  exact h.2.1
